import Mathlib

/-!
Verification of the job-status state machine and fallback-orchestration logic
of the etsyflow image-processing server (src/server.js).

The embedding models `processImageWithNanoBanana`, `updateJobStatus`, the
completion handlers installed by `app.post('/api/process-image')`, the status
endpoint `app.get('/api/job/:jobId')` and the two download endpoints.  External
HTTP calls (Gemini generation, Picsart background removal and upscaling) are
parameters of the run: each call either resolves with a value, rejects with a
message, or never resolves (`pending`).  File-system paths are abstracted to
the three stage outputs the pipeline manipulates; timestamps that never
influence control flow (`createdAt`, `startTime`, `endTime`, `duration`) are
omitted, and `lastUpdated` is modelled as the index of the `updateJobStatus`
call that wrote it.
-/

namespace EtsyFlow

/-- The three on-disk artifacts a pipeline run can produce.  `server.js` names
them with fresh timestamped file names (`gemini_*`, `bg_removed_*`,
`upscaled_*`), which never collide, so identity of the references is all the
orchestration logic observes. -/
inductive PathRef where
  | generated
  | bgRemoved
  | upscaled
deriving DecidableEq, Repr

/-- Outcome of one external HTTP call: resolves with a value, rejects with an
error message, or never settles. -/
inductive CallResult (α : Type) where
  | ok : α → CallResult α
  | err : String → CallResult α
  | pending : CallResult α
deriving DecidableEq, Repr

/-- Whether a call resolved successfully. -/
def CallResult.isOk {α : Type} : CallResult α → Bool
  | .ok _ => true
  | _ => false

/-- One `parts` entry of a Gemini candidate.  `inlineData = some d` models a
part whose `inlineData.data` field is the string `d`; a part whose
`inlineData` object or `data` field is absent is modelled as `none` (both are
falsy in the JS filter, so they are indistinguishable to the code). -/
structure GemPart where
  inlineData : Option String := none
  text : Option String := none
deriving DecidableEq, Repr

/-- One Gemini candidate.  `parts = none` models a candidate whose `content`
or `content.parts` is missing; the code collapses both to `[]`. -/
structure Candidate where
  parts : Option (List GemPart) := none
deriving DecidableEq, Repr

/-- The JSON body of a successful Gemini response.  A missing `candidates`
field behaves exactly like an empty list (both throw the same error), so it is
modelled as a list. -/
structure GeminiData where
  candidates : List Candidate
deriving DecidableEq, Repr

/-- JS truthiness of `part.inlineData && part.inlineData.data`. -/
def partHasImage (p : GemPart) : Bool :=
  match p.inlineData with
  | some d => d != ""
  | none => false

/-- JS truthiness of `part.text`. -/
def partHasText (p : GemPart) : Bool :=
  match p.text with
  | some t => t != ""
  | none => false

/-- The text of a part (`part.text`), defaulting for absent fields. -/
def textOf (p : GemPart) : String := p.text.getD ""

/-- `candidate.content && candidate.content.parts ? candidate.content.parts : []`. -/
def candidateParts (c : Candidate) : List GemPart := c.parts.getD []

/-- The inline-image parts of the first candidate
(`parts.filter(part => part.inlineData && part.inlineData.data)`). -/
def geminiImageParts (d : GeminiData) : List GemPart :=
  match d.candidates with
  | [] => []
  | c :: _ => (candidateParts c).filter partHasImage

/-- The environment of one pipeline run: the job parameters fixed at intake
plus the outcome of each external call.  `geminiCall` is the post-mapping
outcome of the axios POST to Gemini (the `.catch` in the source rewrites
transport errors into messages before rethrowing; we take the rewritten
message).  `removebgCall` and `upscaleCall` succeed by producing a fresh
output file. -/
structure Env where
  jobId : String
  removeBg : Bool
  picsartKey : Bool
  geminiKey : Bool
  geminiCall : CallResult GeminiData
  removebgCall : CallResult Unit
  upscaleCall : CallResult Unit
deriving Repr

/-- One write to the shared job record.  `statusUpdate` models a call to
`updateJobStatus(jobId, status, additionalData)` with the `additionalData`
keys the pipeline actually passes; `thenComplete` and `catchError` model the
`.then`/`.catch` handlers installed by `app.post('/api/process-image')`, which
assign fields directly. -/
inductive JobUpdate where
  | statusUpdate (status : String) (geminiDownloadPath : Option PathRef)
      (pipelineErrors : Option (List String)) (errMsg : Option String)
  | thenComplete (processedPath : PathRef)
  | catchError (msg : String)
deriving DecidableEq, Repr

/-- An `updateJobStatus` call that passes no additional data we model. -/
def statusOnly (s : String) : JobUpdate := JobUpdate.statusUpdate s none none none

/-- Outcome of the inner async processing function: resolve with the final
processed path, reject with a message, or (a call never settled) stay pending
forever. -/
inductive BodyResult where
  | ok : PathRef → BodyResult
  | errored : String → BodyResult
  | pending : BodyResult
deriving DecidableEq, Repr

/-- Result of one optional Picsart step: the status updates it issued, the
value of `finalProcessedPath` after the step, the `pipelineErrors` entries it
appended, and whether the step's call never settled. -/
structure StepOut where
  updates : List JobUpdate
  path : PathRef
  errors : List String
  stuck : Bool
deriving DecidableEq, Repr

/-- Step 1 of the Picsart pipeline (background removal), `server.js` lines
734-752.  On failure the error is recorded and both `bgRemovedPath` and
`finalProcessedPath` are reset to the Gemini output; when skipped they are set
to the Gemini output with no error.  In every non-stuck branch
`bgRemovedPath = finalProcessedPath`, so one `path` field suffices. -/
def removeBgStep (e : Env) : StepOut :=
  if e.removeBg && e.picsartKey then
    match e.removebgCall with
    | .pending =>
      { updates := [statusOnly "removing_background"], path := PathRef.generated,
        errors := [], stuck := true }
    | .ok _ =>
      { updates := [statusOnly "removing_background"], path := PathRef.bgRemoved,
        errors := [], stuck := false }
    | .err m =>
      { updates := [statusOnly "removing_background"], path := PathRef.generated,
        errors := ["Background removal: " ++ m], stuck := false }
  else
    { updates := [], path := PathRef.generated, errors := [], stuck := false }

/-- Step 2 of the Picsart pipeline (upscaling), `server.js` lines 754-775,
given the value of `finalProcessedPath` after step 1 (which equals
`bgRemovedPath`).  On success the intermediate background-removed file is
deleted when distinct from the Gemini output; the second component collects
the deleted paths. -/
def upscaleStep (e : Env) (p1 : PathRef) : StepOut × List PathRef :=
  if e.picsartKey then
    match e.upscaleCall with
    | .pending =>
      ({ updates := [statusOnly "upscaling_image"], path := p1, errors := [], stuck := true }, [])
    | .ok _ =>
      ({ updates := [statusOnly "upscaling_image"], path := PathRef.upscaled,
         errors := [], stuck := false },
       if p1 ≠ PathRef.generated then [p1] else [])
    | .err m =>
      ({ updates := [statusOnly "upscaling_image"], path := p1,
         errors := ["Upscaling: " ++ m], stuck := false }, [])
  else
    ({ updates := [], path := p1, errors := [], stuck := false }, [])

/-- Terminal status assignment, `server.js` lines 777-791: 0 errors →
`pipeline_complete`, 1 → `partial_pipeline_success` (storing the list), else →
`picsart_failed_fallback` (storing the list). -/
def terminalStatusUpdate (errors : List String) : JobUpdate :=
  if errors.length = 0 then statusOnly "pipeline_complete"
  else if errors.length = 1 then
    JobUpdate.statusUpdate "partial_pipeline_success" none (some errors) none
  else
    JobUpdate.statusUpdate "picsart_failed_fallback" none (some errors) none

/-- The outer catch of the processing function wraps every thrown message. -/
def wrapPipelineError (m : String) : String := "Image processing failed: " ++ m

/-- One run of the inner async processing function of
`processImageWithNanoBanana` (`server.js` lines 609-814): the
`updateJobStatus` calls it issued, the files it deleted, the value of
`finalProcessedPath` right after the background-removal step (when reached),
the final `pipelineErrors` list, and how the promise settled. -/
structure BodyRun where
  updates : List JobUpdate
  deleted : List PathRef
  pathAfterBg : Option PathRef
  errors : List String
  result : BodyResult
deriving DecidableEq, Repr

/-- The inner async processing function.  `text.substring(0, 200)` is
modelled by `String.take 200` (JS counts UTF-16 units, Lean counts
characters; they agree on the messages modelled here). -/
def pipelineBody (e : Env) : BodyRun :=
  let u1 := [statusOnly "gemini_processing"]
  if !e.geminiKey then
    { updates := u1, deleted := [], pathAfterBg := none, errors := [],
      result := BodyResult.errored (wrapPipelineError
        "GEMINI_API_KEY (or GOOGLE_API_KEY) environment variable is not set") }
  else
    match e.geminiCall with
    | .pending =>
      { updates := u1, deleted := [], pathAfterBg := none, errors := [],
        result := BodyResult.pending }
    | .err m =>
      { updates := u1, deleted := [], pathAfterBg := none, errors := [],
        result := BodyResult.errored (wrapPipelineError m) }
    | .ok d =>
      match d.candidates with
      | [] =>
        { updates := u1, deleted := [], pathAfterBg := none, errors := [],
          result := BodyResult.errored (wrapPipelineError
            "No candidates returned from Gemini API") }
      | c :: _ =>
        let parts := candidateParts c
        match parts.filter partHasImage with
        | [] =>
          let textParts := parts.filter partHasText
          if textParts.isEmpty then
            { updates := u1, deleted := [], pathAfterBg := none, errors := [],
              result := BodyResult.errored (wrapPipelineError
                "No image or text response received from Gemini API") }
          else
            { updates := u1, deleted := [], pathAfterBg := none, errors := [],
              result := BodyResult.errored (wrapPipelineError
                ("Image generation failed. Gemini response: " ++
                  (String.intercalate " " (textParts.map textOf)).take 200 ++ "...")) }
        | _ :: _ =>
          let u2 := u1 ++ [JobUpdate.statusUpdate "gemini_complete"
            (some PathRef.generated) none none]
          let s1 := removeBgStep e
          if s1.stuck then
            { updates := u2 ++ s1.updates, deleted := [], pathAfterBg := none,
              errors := s1.errors, result := BodyResult.pending }
          else
            let s2del := upscaleStep e s1.path
            if s2del.1.stuck then
              { updates := u2 ++ s1.updates ++ s2del.1.updates, deleted := [],
                pathAfterBg := some s1.path, errors := s1.errors,
                result := BodyResult.pending }
            else
              let errs := s1.errors ++ s2del.1.errors
              { updates := u2 ++ s1.updates ++ s2del.1.updates ++ [terminalStatusUpdate errs],
                deleted := s2del.2, pathAfterBg := some s1.path, errors := errs,
                result := BodyResult.ok s2del.1.path }

/-- The mutable job record held in the `processingJobs` map, restricted to the
fields the orchestrator and the status endpoint read or write.  `pipelineErrors
= none` means the field was never written to the record (the pipeline only
stores it alongside the 1-error and 2-error terminal statuses).  `lastUpdated =
some t` means the `t`-th `updateJobStatus` call (counting from 1) wrote it
last; `completedAt` records only whether the field was ever set. -/
structure Job where
  status : String
  removeBg : Bool
  error : Option String := none
  processedPath : Option PathRef := none
  geminiDownloadPath : Option PathRef := none
  pipelineErrors : Option (List String) := none
  lastUpdated : Option Nat := none
  completedAt : Bool := false
deriving DecidableEq, Repr

/-- The record created by `app.post('/api/process-image')` before the pipeline
starts: `status: 'processing'` plus the intake parameters. -/
def initialJob (e : Env) : Job := { status := "processing", removeBg := e.removeBg }

/-- Apply one write to the record.  `updateJobStatus` sets `status`, refreshes
`lastUpdated`, and `Object.assign`s only the keys present in
`additionalData`; the `.then`/`.catch` handlers assign their fields directly
(without refreshing `lastUpdated`). -/
def applyUpdate (t : Nat) (j : Job) : JobUpdate → Job
  | .statusUpdate s g pe em =>
    { j with
      status := s
      lastUpdated := some t
      geminiDownloadPath := g.orElse (fun _ => j.geminiDownloadPath)
      pipelineErrors := pe.orElse (fun _ => j.pipelineErrors)
      error := em.orElse (fun _ => j.error) }
  | .thenComplete p =>
    { j with status := "complete", processedPath := some p, completedAt := true }
  | .catchError m =>
    { j with status := "error", error := some m, completedAt := true }

/-- Successive record states, starting from `j`, threading the
`updateJobStatus` counter `t`. -/
def recordStatesAux (j : Job) (t : Nat) : List JobUpdate → List Job
  | [] => [j]
  | u :: us =>
    let t2 := match u with
      | JobUpdate.statusUpdate _ _ _ _ => t + 1
      | _ => t
    j :: recordStatesAux (applyUpdate t j u) t2 us

/-- All record states a run produces, the freshly created record first. -/
def recordStates (e : Env) (us : List JobUpdate) : List Job :=
  recordStatesAux (initialJob e) 1 us

/-- The record after every write of a run has been applied. -/
def applyAll (j : Job) (t : Nat) : List JobUpdate → Job
  | [] => j
  | u :: us =>
    let t2 := match u with
      | JobUpdate.statusUpdate _ _ _ _ => t + 1
      | _ => t
    applyAll (applyUpdate t j u) t2 us

/-- The final job record of a run. -/
def finalJob (e : Env) (us : List JobUpdate) : Job := applyAll (initialJob e) 1 us

/-- The message of the 28-second watchdog, `server.js` line 604. -/
def timeoutMessage (jobId : String) : String :=
  "Job " ++ jobId ++ " timed out after 28 seconds (Vercel function limit)"

/-- The writes performed when the processing promise settles and
`Promise.race` has not timed out: on resolve, the `.then` handler of the route
marks the job complete; on reject, the `catch` inside
`processImageWithNanoBanana` writes the error status via `updateJobStatus`,
rethrows, and the route's `.catch` writes the error fields again. -/
def completionUpdates : BodyResult → List JobUpdate
  | .ok p => [JobUpdate.thenComplete p]
  | .errored m => [JobUpdate.statusUpdate "error" none none (some m), JobUpdate.catchError m]
  | .pending => []

/-- A run in which the processing promise settles before the 28-second
watchdog fires (or, when a call never settles, in which the watchdog is not
yet modelled): the pipeline's own writes followed by the completion writes. -/
def runNormal (e : Env) : List JobUpdate :=
  (pipelineBody e).updates ++ completionUpdates (pipelineBody e).result

/-- The writes performed when the watchdog fires: the `catch` around
`Promise.race` records the timeout error via `updateJobStatus`, rethrows, and
the route's `.catch` writes the error fields again. -/
def timeoutUpdates (e : Env) : List JobUpdate :=
  [JobUpdate.statusUpdate "error" none none (some (timeoutMessage e.jobId)),
   JobUpdate.catchError (timeoutMessage e.jobId)]

/-- A run in which the watchdog fires after the pipeline has issued `k` of its
writes and the in-flight external call never resolves afterwards: the
remaining pipeline writes never happen. -/
def runTimeoutNoResume (e : Env) (k : Nat) : List JobUpdate :=
  (pipelineBody e).updates.take k ++ timeoutUpdates e

/-- A run in which the watchdog fires after the pipeline has issued `k` of its
writes while an external call is in flight, and that call resolves later:
`Promise.race` does not cancel the processing promise, so the suspended
pipeline resumes and issues its remaining writes after the timeout writes.
(The race has already settled, so the route's `.then`/`.catch` never run for
the late result.) -/
def runTimeoutResume (e : Env) (k : Nat) : List JobUpdate :=
  (pipelineBody e).updates.take k ++ timeoutUpdates e ++ (pipelineBody e).updates.drop k

/-- The status value a write stores into the record. -/
def updateStatusName : JobUpdate → String
  | .statusUpdate s _ _ _ => s
  | .thenComplete _ => "complete"
  | .catchError _ => "error"

/-- The sequence of status values written to the job record over a run,
starting with the `'processing'` stored at creation. -/
def writtenStatuses (us : List JobUpdate) : List String :=
  "processing" :: us.map updateStatusName

/-- Position of a status along the state-machine order of the pipeline
(creation → generating → generated → removing background → upscaling →
terminal).  All terminal statuses share the last position. -/
def statusRank : String → Nat
  | "processing" => 0
  | "gemini_processing" => 1
  | "gemini_complete" => 2
  | "removing_background" => 3
  | "upscaling_image" => 4
  | "pipeline_complete" => 5
  | "partial_pipeline_success" => 5
  | "picsart_failed_fallback" => 5
  | "complete" => 5
  | "error" => 5
  | _ => 0

/-- Whether a status sequence never moves backward along the state-machine
order. -/
def ranksMonotone : List String → Bool
  | [] => true
  | [_] => true
  | a :: b :: t => decide (statusRank a ≤ statusRank b) && ranksMonotone (b :: t)

/-- The completion statuses recognised by the status and download endpoints,
`server.js` lines 355 and 456. -/
def completedStatuses : List String :=
  ["complete", "pipeline_complete", "partial_pipeline_success", "picsart_failed_fallback"]

/-- The response of `app.get('/api/job/:jobId')`, restricted to the fields
that vary between queries.  `processedUrl` and `geminiUrl` record whether the
corresponding download URL is present (the URL strings themselves only depend
on the job id). -/
structure JobResponse where
  status : String
  lastUpdated : Option Nat
  processedUrl : Bool
  geminiUrl : Bool
  progress : Option String
  error : Option String
deriving DecidableEq, Repr

/-- The `progress` string computed by the status endpoint's `switch`. -/
def progressFor (j : Job) : Option String :=
  match j.status with
  | "processing" => some "Generating design with AI..."
  | "gemini_processing" => some "Generating design with AI..."
  | "gemini_complete" => some (if j.removeBg then "AI design complete, removing background..."
      else "AI design complete, upscaling...")
  | "removing_background" => some "Removing background..."
  | "upscaling_image" => some "Upscaling image for high quality..."
  | "pipeline_complete" => some "Processing complete!"
  | "partial_pipeline_success" => some "Processing complete (partial enhancement)"
  | "picsart_failed_fallback" => some "Processing complete (using fallback)"
  | "complete" => some "Complete!"
  | _ => none

/-- The status endpoint `app.get('/api/job/:jobId')` (`server.js` lines
335-399) as a pure function of the job record: it only reads the record. -/
def jobResponse (j : Job) : JobResponse :=
  { status := j.status,
    lastUpdated := j.lastUpdated,
    processedUrl := completedStatuses.contains j.status && j.processedPath.isSome,
    geminiUrl := j.geminiDownloadPath.isSome,
    progress := progressFor j,
    error := if j.status = "error" then j.error else none }

/-- Split a character list at every occurrence of a separator (the groups
between separators, in order; `String.splitOn` for a one-character
separator). -/
def splitChar (sep : Char) : List Char → List (List Char)
  | [] => [[]]
  | c :: rest =>
    let r := splitChar sep rest
    if c = sep then [] :: r
    else
      match r with
      | [] => [[c]]
      | g :: gs => (c :: g) :: gs

/-- `String.prototype.toLowerCase` on the ASCII strings the endpoints compare
against. -/
def lowerAscii (s : String) : String := ⟨s.data.map Char.toLower⟩

/-- `path.basename` restricted to POSIX separators, as used on the stored
output paths and the uploaded file names. -/
def pathBasename (s : String) : String := ⟨(splitChar '/' s.data).getLastD []⟩

/-- `path.extname`: the suffix of the basename from its last dot, empty when
the basename has no dot or only a leading dot. -/
def extname (s : String) : String :=
  match splitChar '.' (pathBasename s).data with
  | [] => ""
  | [_] => ""
  | first :: rest =>
    if rest.length = 1 ∧ first.isEmpty then ""
    else ⟨'.' :: rest.getLastD []⟩

/-- `path.basename(name, path.extname(name))`: the basename with its own
extension stripped (Node strips the suffix only when it is a proper suffix of
the basename). -/
def basenameNoExt (s : String) : String :=
  let b := (pathBasename s).data
  let e := (extname s).data
  if e.length ≠ 0 ∧ e.length < b.length ∧ b.drop (b.length - e.length) = e then
    ⟨b.take (b.length - e.length)⟩
  else ⟨b⟩

/-- Outcome of the sharp re-encoding attempted at download time. -/
inductive ConvertResult where
  | ok
  | failed (m : String)
deriving DecidableEq, Repr

/-- The response of a download endpoint: a 404 JSON error, the stored file
streamed inline (no `format` query), the re-encoded buffer sent as an
attachment, or the stored file sent raw via `res.download` after a conversion
failure. -/
inductive DlResponse where
  | notFound (msg : String)
  | fileInline (p : String)
  | converted (mime : String) (filename : String)
  | rawDownload (p : String) (filename : String)
deriving DecidableEq, Repr

/-- `(req.query.format || '').toString().toLowerCase()` filtered against the
accepted formats. -/
def normalizeFormat (format : String) : Option String :=
  let f := lowerAscii format
  if ["jpg", "jpeg", "png"].contains f then some f else none

/-- `app.get('/api/download/:jobId')` (`server.js` lines 454-505) as a
function of the fields it reads: whether the job exists, its status and
stored `processedPath`, whether the file is on disk, the original upload name,
the `format` query, and the outcome of the sharp conversion. -/
def downloadFinal (jobFound : Bool) (status : String) (processedPath : Option String)
    (fileOnDisk : Bool) (originalName : String) (format : String)
    (convert : ConvertResult) : DlResponse :=
  match processedPath, jobFound, completedStatuses.contains status with
  | some p, true, true =>
    if !fileOnDisk then DlResponse.notFound "File not found on disk"
    else
      match normalizeFormat format with
      | none => DlResponse.fileInline p
      | some f =>
        match convert with
        | .ok =>
          DlResponse.converted (if f = "png" then "image/png" else "image/jpeg")
            ("processed_" ++ basenameNoExt originalName ++ "." ++
              (if f = "jpeg" then "jpg" else f))
        | .failed _ =>
          let actualExt := if extname p = "" then ".png" else extname p
          DlResponse.rawDownload p ("processed_" ++ basenameNoExt originalName ++ actualExt)
  | _, _, _ => DlResponse.notFound "Processed image not found"

/-- `app.get('/api/download-gemini/:jobId')` (`server.js` lines 402-451):
like the final download but keyed on `geminiDownloadPath`, with no status
check and a `gemini_` filename prefix. -/
def downloadGemini (jobFound : Bool) (geminiDownloadPath : Option String)
    (fileOnDisk : Bool) (originalName : String) (format : String)
    (convert : ConvertResult) : DlResponse :=
  match geminiDownloadPath, jobFound with
  | some p, true =>
    if !fileOnDisk then DlResponse.notFound "File not found on disk"
    else
      match normalizeFormat format with
      | none => DlResponse.fileInline p
      | some f =>
        match convert with
        | .ok =>
          DlResponse.converted (if f = "png" then "image/png" else "image/jpeg")
            ("gemini_" ++ basenameNoExt originalName ++ "." ++
              (if f = "jpeg" then "jpg" else f))
        | .failed _ =>
          let actualExt := if extname p = "" then ".png" else extname p
          DlResponse.rawDownload p ("gemini_" ++ basenameNoExt originalName ++ actualExt)
  | _, _ => DlResponse.notFound "Gemini image not found"

/-- Modelled from the spec's words (§3 invariant on `finalOutputRef`): the
output reference after the background-removal stage is the background-removed
output when that stage ran and succeeded, else the raw generated output.  To
be compared with `pipelineBody`. -/
def specAfterBgRef (e : Env) : PathRef :=
  if e.removeBg && e.picsartKey && e.removebgCall.isOk then PathRef.bgRemoved
  else PathRef.generated

/-- Modelled from the spec's words (§3 invariant on `finalOutputRef`): the
most recent successfully produced stage output at the end of the pipeline.
To be compared with `pipelineBody`. -/
def specFinalOutputRef (e : Env) : PathRef :=
  if e.picsartKey && e.upscaleCall.isOk then PathRef.upscaled
  else specAfterBgRef e

/-- A Gemini part carrying inline image data. -/
def sampleImagePart : GemPart := { inlineData := some "iVBORw0KGgo=" }

/-- A Gemini response with one candidate holding one image part. -/
def sampleData : GeminiData := { candidates := [{ parts := some [sampleImagePart] }] }

/-- A job whose generation succeeds but both Picsart stages fail. -/
def envBothFail : Env :=
  { jobId := "job_1", removeBg := true, picsartKey := true, geminiKey := true,
    geminiCall := CallResult.ok sampleData,
    removebgCall := CallResult.err "Background removal failed (HTTP 402)",
    upscaleCall := CallResult.err "Image upscaling failed (HTTP 402)" }

/-- A job with Picsart unconfigured whose generation call resolves only after
the watchdog has fired. -/
def envLate : Env :=
  { jobId := "job_2", removeBg := false, picsartKey := false, geminiKey := true,
    geminiCall := CallResult.ok sampleData,
    removebgCall := CallResult.pending, upscaleCall := CallResult.pending }

/-- A job in which every stage succeeds. -/
def envAllOk : Env :=
  { jobId := "job_3", removeBg := true, picsartKey := true, geminiKey := true,
    geminiCall := CallResult.ok sampleData,
    removebgCall := CallResult.ok (), upscaleCall := CallResult.ok () }

/-- A job in which background removal fails and upscaling succeeds. -/
def envBgFail : Env :=
  { jobId := "job_4", removeBg := true, picsartKey := true, geminiKey := true,
    geminiCall := CallResult.ok sampleData,
    removebgCall := CallResult.err "Background removal failed (HTTP 500)",
    upscaleCall := CallResult.ok () }

/-- A job created with background removal disabled whose remaining stages
succeed. -/
def envNoBg : Env :=
  { jobId := "job_5", removeBg := false, picsartKey := true, geminiKey := true,
    geminiCall := CallResult.ok sampleData,
    removebgCall := CallResult.pending, upscaleCall := CallResult.ok () }

/-- A Gemini part carrying only text. -/
def refusalPart : GemPart := { text := some "I cannot generate that image." }

/-- A Gemini candidate that returned only text. -/
def refusalCand : Candidate := { parts := some [refusalPart] }

/-- A Gemini response whose single candidate returned only text. -/
def refusalData : GeminiData := { candidates := [refusalCand] }

/-- A job whose generation call returns a textual refusal instead of an
image. -/
def envRefusal : Env :=
  { jobId := "job_6", removeBg := true, picsartKey := true, geminiKey := true,
    geminiCall := CallResult.ok refusalData,
    removebgCall := CallResult.pending, upscaleCall := CallResult.pending }

/-- The value of the `updateJobStatus` counter after processing a list of
writes, mirroring the threading in `recordStatesAux` and `applyAll`. -/
def tickAfter (t : Nat) : List JobUpdate → Nat
  | [] => t
  | u :: us =>
    tickAfter (match u with
      | JobUpdate.statusUpdate _ _ _ _ => t + 1
      | _ => t) us

/-- The statuses the inner processing function can write (everything except
the `complete`/`error` written by the completion handlers). -/
def bodyStatusSet : List String :=
  ["gemini_processing", "gemini_complete", "removing_background", "upscaling_image",
   "pipeline_complete", "partial_pipeline_success", "picsart_failed_fallback"]

theorem statusRank_le_five (s : String) : statusRank s ≤ 5 := by
  rw [statusRank.eq_def]
  split <;> omega

theorem ranksMonotone_append_term (xs : List String) (t : String)
    (h : ranksMonotone xs = true) (ht : statusRank t = 5) :
    ranksMonotone (xs ++ [t]) = true := by
  induction xs with
  | nil => simp [ranksMonotone]
  | cons a tail ih =>
    cases tail with
    | nil =>
      simp [ranksMonotone, ht]
      exact statusRank_le_five a
    | cons b t2 =>
      rw [List.cons_append]
      have h2 := h
      simp [ranksMonotone] at h2
      simp [ranksMonotone]
      exact ⟨h2.1, by
        have := ih (by simp [ranksMonotone, h2.2])
        simpa [ranksMonotone] using this⟩

theorem ranksMonotone_take (xs : List String) (k : Nat)
    (h : ranksMonotone xs = true) : ranksMonotone (xs.take k) = true := by
  induction xs generalizing k with
  | nil => simp [ranksMonotone]
  | cons a tail ih =>
    cases k with
    | zero => simp [ranksMonotone]
    | succ k2 =>
      cases tail with
      | nil => simp [ranksMonotone]
      | cons b t2 =>
        have h2 : (decide (statusRank a ≤ statusRank b) && ranksMonotone (b :: t2)) = true := h
        rw [Bool.and_eq_true] at h2
        cases k2 with
        | zero => simp [ranksMonotone]
        | succ k3 =>
          simp only [List.take_succ_cons]
          have hm : ranksMonotone (a :: b :: t2.take k3) =
              (decide (statusRank a ≤ statusRank b) && ranksMonotone (b :: t2.take k3)) := rfl
          rw [hm, Bool.and_eq_true]
          refine ⟨h2.1, ?_⟩
          simpa [List.take_succ_cons] using ih (k3 + 1) h2.2

theorem applyAll_append (j : Job) (t : Nat) (xs ys : List JobUpdate) :
    applyAll j t (xs ++ ys) = applyAll (applyAll j t xs) (tickAfter t xs) ys := by
  induction xs generalizing j t with
  | nil => simp [applyAll, tickAfter]
  | cons u us ih => simp [applyAll, tickAfter, ih]

theorem status_applyUpdate (t : Nat) (j : Job) (u : JobUpdate) :
    (applyUpdate t j u).status = updateStatusName u := by
  cases u <;> simp [applyUpdate, updateStatusName]

theorem recordStatesAux_ne_nil (j : Job) (t : Nat) (us : List JobUpdate) :
    recordStatesAux j t us ≠ [] := by
  cases us <;> simp [recordStatesAux]

theorem recordStatesAux_status_mem (j : Job) (t : Nat) (us : List JobUpdate) :
    ∀ a ∈ recordStatesAux j t us, a.status = j.status ∨ a.status ∈ us.map updateStatusName := by
  induction us generalizing j t with
  | nil => simp [recordStatesAux]
  | cons u us2 ih =>
    intro a ha
    simp only [recordStatesAux, List.mem_cons] at ha
    rcases ha with rfl | ha
    · exact Or.inl rfl
    · rcases ih _ _ _ ha with h | h
      · exact Or.inr (by simp [h, status_applyUpdate])
      · exact Or.inr (by simp [h])

theorem recordStatesAux_append (j : Job) (t : Nat) (xs ys : List JobUpdate) :
    recordStatesAux j t (xs ++ ys) =
      (recordStatesAux j t xs).dropLast ++
        recordStatesAux (applyAll j t xs) (tickAfter t xs) ys := by
  induction xs generalizing j t with
  | nil => simp [recordStatesAux, applyAll, tickAfter]
  | cons u us ih =>
    simp only [List.cons_append, recordStatesAux, applyAll, tickAfter, List.append_eq]
    rw [ih]
    rcases hus : recordStatesAux (applyUpdate t j u)
        (match u with | JobUpdate.statusUpdate _ _ _ _ => t + 1 | _ => t) us with _ | ⟨b, bs⟩
    · exact absurd hus (recordStatesAux_ne_nil _ _ _)
    · simp

theorem bodyStatusNames_mem (e : Env) :
    ∀ u ∈ (pipelineBody e).updates, updateStatusName u ∈ bodyStatusSet := by
  rcases e with ⟨jid, rb, pk, gk, gc, bgc, upc⟩
  rcases gk with _ | _
  · simp [pipelineBody, statusOnly, updateStatusName, bodyStatusSet]
  rcases gc with d | m | _
  · rcases d with ⟨cands⟩
    rcases cands with _ | ⟨c, cs⟩
    · simp [pipelineBody, statusOnly, updateStatusName, bodyStatusSet]
    · rcases hf : (candidateParts c).filter partHasImage with _ | ⟨p, ps⟩
      · rcases ht : (candidateParts c).filter partHasText with _ | ⟨q, qs⟩ <;>
          simp [pipelineBody, hf, ht, statusOnly, updateStatusName, bodyStatusSet]
      · rcases rb with _ | _ <;> rcases pk with _ | _ <;>
          rcases bgc with _ | mb | _ <;> rcases upc with _ | mu | _ <;>
            simp [pipelineBody, hf, statusOnly, updateStatusName, bodyStatusSet,
              removeBgStep, upscaleStep, terminalStatusUpdate]
  · simp [pipelineBody, statusOnly, updateStatusName, bodyStatusSet]
  · simp [pipelineBody, statusOnly, updateStatusName, bodyStatusSet]

theorem notSettled_of_mem_bodyStatusSet (s : String) (h : s ∈ bodyStatusSet) :
    ¬(s = "complete" ∨ s = "error") := by
  simp [bodyStatusSet] at h
  rcases h with rfl | rfl | rfl | rfl | rfl | rfl | rfl <;> simp

theorem jobResponse_catchError (t : Nat) (j : Job) (m : String)
    (hs : j.status = "error") (he : j.error = some m) :
    jobResponse (applyUpdate t j (JobUpdate.catchError m)) = jobResponse j := by
  simp [applyUpdate, jobResponse, progressFor, hs, he]

theorem applyAll_status_mem (j : Job) (t : Nat) (us : List JobUpdate) :
    (applyAll j t us).status = j.status ∨ (applyAll j t us).status ∈ us.map updateStatusName := by
  induction us generalizing j t with
  | nil => exact Or.inl rfl
  | cons u us2 ih =>
    simp only [applyAll]
    rcases ih (applyUpdate t j u)
        (match u with | JobUpdate.statusUpdate _ _ _ _ => t + 1 | _ => t) with h | h
    · right
      simp [h, status_applyUpdate]
    · right
      simp [h]

theorem pairwise_respStable_of_notSettled (l : List Job)
    (h : ∀ a ∈ l, ¬(a.status = "complete" ∨ a.status = "error")) :
    l.Pairwise (fun a b =>
      (a.status = "complete" ∨ a.status = "error") → jobResponse b = jobResponse a) := by
  induction l with
  | nil => exact List.Pairwise.nil
  | cons x xs ih =>
    refine List.Pairwise.cons ?_ (ih ?_)
    · intro b hb hs
      exact absurd hs (h x (by simp))
    · intro a ha
      exact h a (by simp [ha])

theorem bodyStatuses_monotone (e : Env) :
    ranksMonotone (writtenStatuses (pipelineBody e).updates) = true := by
  rcases e with ⟨jid, rb, pk, gk, gc, bgc, upc⟩
  rcases gk with _ | _
  · simp [pipelineBody, writtenStatuses, ranksMonotone, statusOnly, updateStatusName, statusRank]
  rcases gc with d | m | _
  · rcases d with ⟨cands⟩
    rcases cands with _ | ⟨c, cs⟩
    · simp [pipelineBody, writtenStatuses, ranksMonotone, statusOnly, updateStatusName, statusRank]
    · rcases hf : (candidateParts c).filter partHasImage with _ | ⟨p, ps⟩
      · rcases ht : (candidateParts c).filter partHasText with _ | ⟨q, qs⟩ <;>
          simp [pipelineBody, hf, ht, writtenStatuses, ranksMonotone, statusOnly,
            updateStatusName, statusRank]
      · rcases rb with _ | _ <;> rcases pk with _ | _ <;>
          rcases bgc with _ | mb | _ <;> rcases upc with _ | mu | _ <;>
            simp [pipelineBody, hf, writtenStatuses, ranksMonotone, statusOnly,
              updateStatusName, statusRank, removeBgStep, upscaleStep, terminalStatusUpdate]
  · simp [pipelineBody, writtenStatuses, ranksMonotone, statusOnly, updateStatusName, statusRank]
  · simp [pipelineBody, writtenStatuses, ranksMonotone, statusOnly, updateStatusName, statusRank]

/-- C1: evaluation of the code at a job whose generation succeeds and whose
two optional stages both fail.  The pipeline writes the fallback-only terminal
status `picsart_failed_fallback`, records exactly two `pipelineErrors`
entries, and the downloaded artifact (`processedPath`) is the raw generated
output — but the completion handler of `app.post('/api/process-image')` then
overwrites the status with `complete`, so the final status of the record is
`complete`, not the fallback-only status the claim (and the README status
list) states. -/
theorem c1_both_optional_fail_evaluation :
    "picsart_failed_fallback" ∈ writtenStatuses (runNormal envBothFail) ∧
    (finalJob envBothFail (runNormal envBothFail)).pipelineErrors =
      some ["Background removal: Background removal failed (HTTP 402)",
            "Upscaling: Image upscaling failed (HTTP 402)"] ∧
    (finalJob envBothFail (runNormal envBothFail)).processedPath = some PathRef.generated ∧
    (finalJob envBothFail (runNormal envBothFail)).status = "complete" ∧
    (finalJob envBothFail (runNormal envBothFail)).status ≠ "picsart_failed_fallback" := by
  decide

/-- C2: `finalProcessedPath` always references the output of the most recent
successfully completed stage.  After the background-removal step it is the
background-removed output exactly when that stage ran and succeeded, and
otherwise the raw generated output; the pipeline resolves with the upscaled
output exactly when upscaling ran and succeeded; a failed stage never
contributes its (nonexistent) output; and when upscaling fails the reference
stays at its pre-stage value. -/
theorem c2_finalOutputRef_invariant (e : Env) (d : GeminiData)
    (hkey : e.geminiKey = true) (hg : e.geminiCall = CallResult.ok d)
    (himg : geminiImageParts d ≠ [])
    (hbgc : e.removeBg = true → e.picsartKey = true → e.removebgCall ≠ CallResult.pending)
    (hupc : e.picsartKey = true → e.upscaleCall ≠ CallResult.pending) :
    (pipelineBody e).pathAfterBg = some (specAfterBgRef e) ∧
    (pipelineBody e).result = BodyResult.ok (specFinalOutputRef e) ∧
    (∀ m, e.removebgCall = CallResult.err m →
      (pipelineBody e).result ≠ BodyResult.ok PathRef.bgRemoved) ∧
    (∀ m, e.upscaleCall = CallResult.err m →
      (pipelineBody e).result ≠ BodyResult.ok PathRef.upscaled ∧
      (pipelineBody e).result = BodyResult.ok (specAfterBgRef e)) := by
  rcases hd : d.candidates with _ | ⟨c, cs⟩
  · exact absurd (by simp [geminiImageParts, hd]) himg
  rcases hf : (candidateParts c).filter partHasImage with _ | ⟨p, ps⟩
  · exact absurd (by simp [geminiImageParts, hd, hf]) himg
  rcases e with ⟨jid, rb, pk, gk, gc, bgc, upc⟩
  simp only at hg hbgc hupc
  subst hg
  rcases gk with _ | _
  · simp at hkey
  rcases rb with _ | _ <;> rcases pk with _ | _ <;>
    rcases bgc with _ | mb | _ <;> rcases upc with _ | mu | _ <;>
      simp_all [pipelineBody, hd, hf, removeBgStep, upscaleStep, terminalStatusUpdate,
        specAfterBgRef, specFinalOutputRef, CallResult.isOk]

/-- Witness for C2 at a job whose background removal fails and whose
upscaling succeeds: the reference after the failed stage is the raw generated
output and the pipeline resolves with the upscaled output, never the
background-removed one. -/
theorem c2_finalOutputRef_invariant_witness :
    (pipelineBody envBgFail).pathAfterBg = some (specAfterBgRef envBgFail) ∧
    (pipelineBody envBgFail).result = BodyResult.ok (specFinalOutputRef envBgFail) ∧
    (pipelineBody envBgFail).result ≠ BodyResult.ok PathRef.bgRemoved :=
  have h := c2_finalOutputRef_invariant envBgFail sampleData rfl rfl (by decide)
    (fun _ _ => by decide) (fun _ => by decide)
  ⟨h.1, h.2.1, h.2.2.1 "Background removal failed (HTTP 500)" rfl⟩

/-- C3: when the background-removal stage is attempted and its call fails,
the orchestrator records a `pipelineErrors` entry tagged with
`Background removal`, never writes the `error` status, resets the output
reference to the raw generated output, and still runs the upscaling stage;
the run finishes in a non-error completion status. -/
theorem c3_bg_failure_nonfatal (e : Env) (d : GeminiData) (m : String)
    (hkey : e.geminiKey = true) (hg : e.geminiCall = CallResult.ok d)
    (himg : geminiImageParts d ≠ [])
    (hrb : e.removeBg = true) (hpk : e.picsartKey = true)
    (hbg : e.removebgCall = CallResult.err m)
    (hup : e.upscaleCall ≠ CallResult.pending) :
    (pipelineBody e).errors.head? = some ("Background removal: " ++ m) ∧
    (pipelineBody e).pathAfterBg = some PathRef.generated ∧
    "upscaling_image" ∈ writtenStatuses (runNormal e) ∧
    "error" ∉ writtenStatuses (runNormal e) ∧
    (finalJob e (runNormal e)).status = "complete" := by
  rcases hd : d.candidates with _ | ⟨c, cs⟩
  · exact absurd (by simp [geminiImageParts, hd]) himg
  · rcases hf : (candidateParts c).filter partHasImage with _ | ⟨p, ps⟩
    · exact absurd (by simp [geminiImageParts, hd, hf]) himg
    · rcases hu : e.upscaleCall with _ | mu | _
      · simp [pipelineBody, hkey, hg, hd, hf, removeBgStep, upscaleStep, hrb, hpk, hbg, hu,
          runNormal, completionUpdates, terminalStatusUpdate, writtenStatuses,
          finalJob, applyAll, applyUpdate, statusOnly, updateStatusName]
      · simp [pipelineBody, hkey, hg, hd, hf, removeBgStep, upscaleStep, hrb, hpk, hbg, hu,
          runNormal, completionUpdates, terminalStatusUpdate, writtenStatuses,
          finalJob, applyAll, applyUpdate, statusOnly, updateStatusName]
      · exact absurd hu hup

/-- Witness for C3 at a job whose background removal fails with an HTTP
error and whose upscaling succeeds. -/
theorem c3_bg_failure_nonfatal_witness :
    (pipelineBody envBgFail).errors.head? =
      some ("Background removal: " ++ "Background removal failed (HTTP 500)") ∧
    (pipelineBody envBgFail).pathAfterBg = some PathRef.generated ∧
    "upscaling_image" ∈ writtenStatuses (runNormal envBgFail) ∧
    "error" ∉ writtenStatuses (runNormal envBgFail) ∧
    (finalJob envBgFail (runNormal envBgFail)).status = "complete" :=
  c3_bg_failure_nonfatal envBgFail sampleData "Background removal failed (HTTP 500)"
    rfl rfl (by decide) rfl rfl rfl (by decide)

/-- C4: a generation response with no inline image data is fatal: the job
ends with status `error`; when the response has zero candidates it fails with
the no-candidates message, and when the first candidate carries (only) text
parts the stored message embeds that text truncated to 200 characters. -/
theorem c4_no_image_fatal (e : Env) (d : GeminiData)
    (hkey : e.geminiKey = true) (hg : e.geminiCall = CallResult.ok d)
    (himg : geminiImageParts d = []) :
    (finalJob e (runNormal e)).status = "error" ∧
    (d.candidates = [] →
      (finalJob e (runNormal e)).error =
        some (wrapPipelineError "No candidates returned from Gemini API")) ∧
    (∀ c cs, d.candidates = c :: cs → (candidateParts c).filter partHasText ≠ [] →
      (finalJob e (runNormal e)).error =
        some (wrapPipelineError ("Image generation failed. Gemini response: " ++
          (String.intercalate " " (((candidateParts c).filter partHasText).map textOf)).take 200
            ++ "..."))) := by
  rcases hd : d.candidates with _ | ⟨c, cs⟩
  · refine ⟨?_, ?_, ?_⟩
    · simp [pipelineBody, hkey, hg, hd, runNormal, completionUpdates, finalJob, applyAll,
        applyUpdate, initialJob, statusOnly]
    · intro _
      simp [pipelineBody, hkey, hg, hd, runNormal, completionUpdates, finalJob, applyAll,
        applyUpdate, initialJob, statusOnly]
    · intro c2 cs2 hdc
      exact absurd hdc (by simp)
  · have hf : (candidateParts c).filter partHasImage = [] := by
      simpa [geminiImageParts, hd] using himg
    rcases ht : (candidateParts c).filter partHasText with _ | ⟨q, qs⟩
    · refine ⟨?_, ?_, ?_⟩
      · simp [pipelineBody, hkey, hg, hd, hf, ht, runNormal, completionUpdates, finalJob,
          applyAll, applyUpdate, initialJob, statusOnly]
      · intro h0
        exact absurd h0 (by simp)
      · intro c2 cs2 hdc htne
        injection hdc with h1 h2
        subst h1
        exact absurd ht htne
    · refine ⟨?_, ?_, ?_⟩
      · simp [pipelineBody, hkey, hg, hd, hf, ht, runNormal, completionUpdates, finalJob,
          applyAll, applyUpdate, initialJob, statusOnly]
      · intro h0
        exact absurd h0 (by simp)
      · intro c2 cs2 hdc htne
        injection hdc with h1 h2
        subst h1
        simp [pipelineBody, hkey, hg, hd, hf, ht, runNormal, completionUpdates, finalJob,
          applyAll, applyUpdate, initialJob, statusOnly]

/-- Witness for C4 at a job whose generation call returns a textual refusal:
the job ends in `error` and the stored message embeds the (short, hence
untruncated) refusal text. -/
theorem c4_no_image_fatal_witness :
    (finalJob envRefusal (runNormal envRefusal)).status = "error" ∧
    (finalJob envRefusal (runNormal envRefusal)).error =
      some (wrapPipelineError ("Image generation failed. Gemini response: " ++
        (String.intercalate " "
          (((candidateParts refusalCand).filter partHasText).map textOf)).take 200 ++ "...")) :=
  have h := c4_no_image_fatal envRefusal refusalData rfl rfl (by decide)
  ⟨h.1, h.2.2 refusalCand [] rfl (by decide)⟩

/-- C5 (amended): when the 28-second watchdog fires the job is set to
`error` with the timeout message, and — provided the in-flight external call
never resolves, so the suspended pipeline never resumes — the record keeps
that status and message.  (The unamended claim, that this holds regardless of
the in-flight call resolving later, is refuted by
`c5_timeout_overwritten_counterexample`.) -/
theorem c5_timeout_error_no_resume (e : Env) (k : Nat) :
    (finalJob e (runTimeoutNoResume e k)).status = "error" ∧
    (finalJob e (runTimeoutNoResume e k)).error = some (timeoutMessage e.jobId) := by
  unfold runTimeoutNoResume finalJob
  rw [applyAll_append]
  simp [timeoutUpdates, applyAll, applyUpdate]

/-- C5 counterexample: a job whose generation call resolves only after the
watchdog fired.  The timeout writes status `error` with the timeout message,
but `Promise.race` does not cancel the processing promise, so the resumed
pipeline overwrites the record and the job does not remain in the error
state: its final status is `pipeline_complete`. -/
theorem c5_timeout_overwritten_counterexample :
    "error" ∈ writtenStatuses (runTimeoutResume envLate 1) ∧
    (recordStates envLate (runTimeoutResume envLate 1)).getD 3 (initialJob envLate) =
      { status := "error", removeBg := false,
        error := some (timeoutMessage "job_2"), lastUpdated := some 2, completedAt := true } ∧
    (finalJob envLate (runTimeoutResume envLate 1)).status = "pipeline_complete" ∧
    (finalJob envLate (runTimeoutResume envLate 1)).status ≠ "error" := by
  decide

/-- C6 (amended): the sequence of status values written to the job record is
monotone along the state-machine order in every run in which the pipeline is
not resumed after the watchdog fired — that is, in every run that settles
before the 28-second timeout, and in every timed-out run whose in-flight call
never resolves.  (The unamended claim, covering all runs, is refuted by
`c6_nonmonotone_counterexample`.) -/
theorem c6_status_monotone_amended :
    (∀ e : Env, ranksMonotone (writtenStatuses (runNormal e)) = true) ∧
    (∀ (e : Env) (k : Nat), ranksMonotone (writtenStatuses (runTimeoutNoResume e k)) = true) := by
  constructor
  · intro e
    have hb := bodyStatuses_monotone e
    unfold runNormal
    rcases hres : (pipelineBody e).result with p | m | _
    · have h1 : writtenStatuses ((pipelineBody e).updates ++ completionUpdates (BodyResult.ok p)) =
          writtenStatuses (pipelineBody e).updates ++ ["complete"] := by
        simp [writtenStatuses, completionUpdates, updateStatusName]
      rw [h1]
      exact ranksMonotone_append_term _ _ hb rfl
    · have h1 : writtenStatuses ((pipelineBody e).updates ++
            completionUpdates (BodyResult.errored m)) =
          (writtenStatuses (pipelineBody e).updates ++ ["error"]) ++ ["error"] := by
        simp [writtenStatuses, completionUpdates, updateStatusName]
      rw [h1]
      exact ranksMonotone_append_term _ _ (ranksMonotone_append_term _ _ hb rfl) rfl
    · have h1 : writtenStatuses ((pipelineBody e).updates ++ completionUpdates BodyResult.pending) =
          writtenStatuses (pipelineBody e).updates := by
        simp [writtenStatuses, completionUpdates]
      rw [h1]
      exact hb
  · intro e k
    have hb := bodyStatuses_monotone e
    have hpre : ranksMonotone
        ("processing" :: (((pipelineBody e).updates.map updateStatusName).take k)) = true := by
      have h2 := ranksMonotone_take (writtenStatuses (pipelineBody e).updates) (k + 1) hb
      simpa [writtenStatuses, List.take_succ_cons] using h2
    have h1 : writtenStatuses (runTimeoutNoResume e k) =
        (("processing" :: (((pipelineBody e).updates.map updateStatusName).take k)) ++
          ["error"]) ++ ["error"] := by
      simp [writtenStatuses, runTimeoutNoResume, timeoutUpdates, updateStatusName, List.map_take]
    rw [h1]
    exact ranksMonotone_append_term _ _ (ranksMonotone_append_term _ _ hpre rfl) rfl

/-- C6 counterexample: in the run of `c5_timeout_overwritten_counterexample`
the resumed pipeline writes `gemini_complete` after the terminal `error`, so
the written status sequence moves backward along the state-machine order. -/
theorem c6_nonmonotone_counterexample :
    ranksMonotone (writtenStatuses (runTimeoutResume envLate 1)) = false := by
  decide

/-- C7: a job created with `removeBg = false` whose generation and upscaling
succeed never enters the background-removal stage, records no pipeline error
(`pipelineErrors` is never even written to the record), reaches the
fully-enhanced terminal status `pipeline_complete`, and settles as
`complete`. -/
theorem c7_skip_bg_complete (e : Env) (d : GeminiData)
    (hkey : e.geminiKey = true) (hg : e.geminiCall = CallResult.ok d)
    (himg : geminiImageParts d ≠ [])
    (hrb : e.removeBg = false) (hpk : e.picsartKey = true)
    (hup : e.upscaleCall = CallResult.ok ()) :
    "removing_background" ∉ writtenStatuses (runNormal e) ∧
    (pipelineBody e).errors = [] ∧
    "pipeline_complete" ∈ writtenStatuses (runNormal e) ∧
    (finalJob e (runNormal e)).status = "complete" ∧
    (finalJob e (runNormal e)).pipelineErrors = none := by
  rcases hd : d.candidates with _ | ⟨c, cs⟩
  · exact absurd (by simp [geminiImageParts, hd]) himg
  rcases hf : (candidateParts c).filter partHasImage with _ | ⟨p, ps⟩
  · exact absurd (by simp [geminiImageParts, hd, hf]) himg
  simp [pipelineBody, hkey, hg, hd, hf, removeBgStep, upscaleStep, terminalStatusUpdate,
    hrb, hpk, hup, runNormal, completionUpdates, writtenStatuses, updateStatusName,
    statusOnly, finalJob, applyAll, applyUpdate, initialJob]

/-- Witness for C7 at a concrete job with background removal disabled and a
successful upscale. -/
theorem c7_skip_bg_complete_witness :
    "removing_background" ∉ writtenStatuses (runNormal envNoBg) ∧
    (pipelineBody envNoBg).errors = [] ∧
    "pipeline_complete" ∈ writtenStatuses (runNormal envNoBg) ∧
    (finalJob envNoBg (runNormal envNoBg)).status = "complete" ∧
    (finalJob envNoBg (runNormal envNoBg)).pipelineErrors = none :=
  c7_skip_bg_complete envNoBg sampleData rfl rfl (by decide) rfl rfl rfl

/-- C8 (amended): the status endpoint is a pure read of the job record
(`jobResponse` is a function), and in every run that settles before the
watchdog fires, once a record state carries a settled status (`complete` or
`error`, the statuses written by the completion handlers) every later record
state yields an identical response.  The unamended claim — stability from any
spec-terminal status onward, in every run — is refuted by
`c8_terminal_mutation_counterexample`. -/
theorem c8_settled_response_stable (e : Env) :
    (recordStates e (runNormal e)).Pairwise
      (fun a b =>
        (a.status = "complete" ∨ a.status = "error") → jobResponse b = jobResponse a) := by
  unfold recordStates runNormal
  rw [recordStatesAux_append, List.pairwise_append]
  have hbodyRec : ∀ a ∈ recordStatesAux (initialJob e) 1 (pipelineBody e).updates,
      ¬(a.status = "complete" ∨ a.status = "error") := by
    intro a ha
    rcases recordStatesAux_status_mem _ _ _ a ha with h | h
    · simp [initialJob] at h
      simp [h]
    · rcases List.mem_map.mp h with ⟨u, hu, hname⟩
      exact hname ▸ notSettled_of_mem_bodyStatusSet _ (bodyStatusNames_mem e u hu)
  have hA : ∀ a ∈ (recordStatesAux (initialJob e) 1 (pipelineBody e).updates).dropLast,
      ¬(a.status = "complete" ∨ a.status = "error") := by
    intro a ha
    exact hbodyRec a ((List.dropLast_sublist _).subset ha)
  have hjb : ¬((applyAll (initialJob e) 1 (pipelineBody e).updates).status = "complete" ∨
      (applyAll (initialJob e) 1 (pipelineBody e).updates).status = "error") := by
    rcases applyAll_status_mem (initialJob e) 1 (pipelineBody e).updates with h | h
    · rw [show (initialJob e).status = "processing" from rfl] at h
      simp [h]
    · rcases List.mem_map.mp h with ⟨u, hu, hname⟩
      exact hname ▸ notSettled_of_mem_bodyStatusSet _ (bodyStatusNames_mem e u hu)
  refine ⟨pairwise_respStable_of_notSettled _ hA, ?_, ?_⟩
  · rcases hres : (pipelineBody e).result with p | m | _
    · simp only [completionUpdates, recordStatesAux]
      exact List.Pairwise.cons (fun b hb hs => absurd hs hjb) (by simp)
    · simp only [completionUpdates, recordStatesAux]
      refine List.Pairwise.cons (fun b hb hs => absurd hs hjb) ?_
      refine List.Pairwise.cons ?_ (by simp)
      intro b hb
      simp only [List.mem_singleton] at hb
      subst hb
      intro _
      refine jobResponse_catchError _ _ _ ?_ ?_
      · exact status_applyUpdate _ _ _
      · simp [applyUpdate, Option.orElse]
    · simp [completionUpdates, recordStatesAux]
  · intro a ha b hb hs
    exact absurd hs (hA a ha)

/-- C8 counterexample: in the timed-out run with a late-resolving generation
call, the record reaches the terminal status `error` and is then mutated by
the resumed pipeline, so a later status query returns a different response
than a query made while the job sat in the terminal error state. -/
theorem c8_terminal_mutation_counterexample :
    ((recordStates envLate (runTimeoutResume envLate 1)).getD 3 (initialJob envLate)).status
      = "error" ∧
    jobResponse ((recordStates envLate (runTimeoutResume envLate 1)).getD 5 (initialJob envLate))
      ≠ jobResponse
        ((recordStates envLate (runTimeoutResume envLate 1)).getD 3 (initialJob envLate)) ∧
    (recordStates envLate (runTimeoutResume envLate 1)).getD 4 (initialJob envLate)
      ≠ (recordStates envLate (runTimeoutResume envLate 1)).getD 3 (initialJob envLate) := by
  decide

/-- C9: the generated artifact is retained for the lifetime of the job: the
pipeline never deletes the Gemini output (the only file it ever deletes is the
background-removed intermediate, and only when distinct from the generated
file), and `geminiDownloadPath`, once written, references the generated
output in every record state through the end of the run. -/
theorem c9_generated_retained (e : Env) (d : GeminiData)
    (hkey : e.geminiKey = true) (hg : e.geminiCall = CallResult.ok d)
    (himg : geminiImageParts d ≠ []) :
    PathRef.generated ∉ (pipelineBody e).deleted ∧
    ((pipelineBody e).deleted = [] ∨ (pipelineBody e).deleted = [PathRef.bgRemoved]) ∧
    (∀ j ∈ recordStates e (runNormal e),
      j.geminiDownloadPath = none ∨ j.geminiDownloadPath = some PathRef.generated) ∧
    (finalJob e (runNormal e)).geminiDownloadPath = some PathRef.generated := by
  rcases hd : d.candidates with _ | ⟨c, cs⟩
  · exact absurd (by simp [geminiImageParts, hd]) himg
  rcases hf : (candidateParts c).filter partHasImage with _ | ⟨p, ps⟩
  · exact absurd (by simp [geminiImageParts, hd, hf]) himg
  rcases e with ⟨jid, rb, pk, gk, gc, bgc, upc⟩
  simp only at hg
  subst hg
  rcases gk with _ | _
  · simp at hkey
  rcases rb with _ | _ <;> rcases pk with _ | _ <;>
    rcases bgc with _ | mb | _ <;> rcases upc with _ | mu | _ <;>
      simp [pipelineBody, hd, hf, removeBgStep, upscaleStep, terminalStatusUpdate,
        runNormal, completionUpdates, recordStates, recordStatesAux, finalJob, applyAll,
        applyUpdate, initialJob, statusOnly]

/-- Witness for C9 at a job where both optional stages succeed: the one
deleted file is the background-removed intermediate, and the final record
still references the generated output. -/
theorem c9_generated_retained_witness :
    PathRef.generated ∉ (pipelineBody envAllOk).deleted ∧
    ((pipelineBody envAllOk).deleted = [] ∨
      (pipelineBody envAllOk).deleted = [PathRef.bgRemoved]) ∧
    (finalJob envAllOk (runNormal envAllOk)).geminiDownloadPath = some PathRef.generated :=
  have h := c9_generated_retained envAllOk sampleData rfl rfl (by decide)
  ⟨h.1, h.2.1, h.2.2.2⟩

/-- C10: when a download endpoint holds a stored output file and re-encoding
to a requested valid format fails, the endpoint does not answer with a 404
error: both `/api/download/:jobId` and `/api/download-gemini/:jobId` fall
back to sending the stored file raw, under a filename built from the actual
extension of the stored file (defaulting to `.png` when it has none). -/
theorem c10_download_fallback (st p name format m : String)
    (hst : completedStatuses.contains st = true)
    (hfmt : (["jpg", "jpeg", "png"] : List String).contains (lowerAscii format) = true) :
    downloadFinal true st (some p) true name format (ConvertResult.failed m) =
      DlResponse.rawDownload p ("processed_" ++ basenameNoExt name ++
        (if extname p = "" then ".png" else extname p)) ∧
    (∀ msg, downloadFinal true st (some p) true name format (ConvertResult.failed m) ≠
      DlResponse.notFound msg) ∧
    downloadGemini true (some p) true name format (ConvertResult.failed m) =
      DlResponse.rawDownload p ("gemini_" ++ basenameNoExt name ++
        (if extname p = "" then ".png" else extname p)) ∧
    (∀ msg, downloadGemini true (some p) true name format (ConvertResult.failed m) ≠
      DlResponse.notFound msg) := by
  have hst2 : st ∈ completedStatuses := by simpa using hst
  have hf2 : lowerAscii format = "jpg" ∨ lowerAscii format = "jpeg" ∨ lowerAscii format = "png" := by
    simpa using hfmt
  rcases hf2 with h | h | h <;>
    simp [downloadFinal, downloadGemini, normalizeFormat, hst2, h]

/-- Witness for C10 at a completed job holding a stored PNG, with a failing
conversion to the requested `PNG` format. -/
theorem c10_download_fallback_witness :
    downloadFinal true "pipeline_complete" (some "processed/upscaled_7_gemini_3_a.png") true
        "photo.jpg" "PNG" (ConvertResult.failed "conversion error") =
      DlResponse.rawDownload "processed/upscaled_7_gemini_3_a.png" "processed_photo.png" ∧
    downloadGemini true (some "processed/gemini_3_a.png") true
        "photo.jpg" "jpeg" (ConvertResult.failed "conversion error") =
      DlResponse.rawDownload "processed/gemini_3_a.png" "gemini_photo.png" :=
  have h1 := c10_download_fallback "pipeline_complete" "processed/upscaled_7_gemini_3_a.png"
    "photo.jpg" "PNG" "conversion error" (by decide) (by decide)
  have h2 := c10_download_fallback "pipeline_complete" "processed/gemini_3_a.png"
    "photo.jpg" "jpeg" "conversion error" (by decide) (by decide)
  ⟨by simpa using h1.1, by simpa using h2.2.2.1⟩

end EtsyFlow
